import Mathlib

/-!
Verification of the frame-reassembly and noise-suppression pipeline of
`pkg/sfu/interceptor/noise_filter.go` (AgentIX RTC server).

The Go code is shallowly embedded:

* bytes are `Nat` (always `< 256` where they come from the wire; the
  little-endian decoder reduces mod 256 exactly as `binary.LittleEndian`
  only ever sees byte values);
* `float32` samples are modelled as exact rationals `ℚ`; the operations the
  code performs (division by 32768, multiplication by constants, clamping,
  truncating conversion to `int16`) are represented exactly;
* the external RNNoise engine (`rnnoise.NoiseFilter.FilterStream`, an
  external dependency, not part of this repository) is an abstract function
  parameter returning `(denoisedFrame, keepFrame, err)` — `keepFrame` is
  the voice-activity decision, `err = true` models a non-nil Go error;
* the RTP marshalling layer (`pion/rtp`, also an external dependency) is a
  pair of abstract function parameters `unmarshal`/`marshal`;
* engine creation (`rnnoise.NewNoiseFilter`) is an oracle
  `createOk : Nat → Bool` telling whether the k-th creation attempt
  succeeds; the reader state carries a ghost counter of attempts.
-/

/-- `rnnoiseSampleRate` from noise_filter.go (48 kHz). -/
def rnnoiseSampleRate : Nat := 48000

/-- `rnnoiseFrameSize` from noise_filter.go: 480 samples = 10 ms at 48 kHz. -/
def rnnoiseFrameSize : Nat := 480

/-- `rnnoiseBytesPerSample` from noise_filter.go: 16-bit samples. -/
def rnnoiseBytesPerSample : Nat := 2

/-- `rnnoiseFrameBytes = rnnoiseFrameSize * rnnoiseBytesPerSample` (= 960). -/
def rnnoiseFrameBytes : Nat := rnnoiseFrameSize * rnnoiseBytesPerSample

/-- `binary.LittleEndian.Uint16(frame[i:])`: the 16-bit value built from two
wire bytes, low byte first.  The `% 256` records that the inputs are bytes. -/
def uint16OfBytes (b0 b1 : Nat) : Nat := b0 % 256 + 256 * (b1 % 256)

/-- Go's `int16(u)` reinterpretation of a `uint16` as a signed 16-bit value. -/
def int16OfUint16 (u : Nat) : Int :=
  if u % 65536 < 32768 then ((u % 65536 : Nat) : Int)
  else ((u % 65536 : Nat) : Int) - 65536

/-- Go's `uint16(v)` reinterpretation of an `int16` as an unsigned value
(two's complement). -/
def uint16OfInt16 (v : Int) : Nat := (v % 65536).toNat

/-- Go's truncating conversion `int16(f)` of a float to an integer:
rounds toward zero. -/
def truncToInt (q : ℚ) : Int := if 0 ≤ q then ⌊q⌋ else ⌈q⌉

/-- The two little-endian wire bytes of `uint16(int16(v))`
(`binary.LittleEndian.PutUint16`). -/
def bytePairOfInt16 (v : Int) : List Nat :=
  [uint16OfInt16 v % 256, uint16OfInt16 v / 256 % 256]

/-- Interleave two byte streams drawn from a list of samples: the model of a
loop writing two bytes per element.  Used both for building test frames and
for the `PutUint16` output loop. -/
def pairJoin (l : List ℚ) (f : ℚ → List Nat) : List Nat := l.flatMap f

/-- The sample at index `i` of a frame, as the code computes it:
`float32(int16(binary.LittleEndian.Uint16(frame[i*2:]))) / 32768.0`. -/
def sampleAt (frame : List Nat) (i : Nat) : ℚ :=
  (int16OfUint16 (uint16OfBytes (frame.getD (2 * i) 0) (frame.getD (2 * i + 1) 0)) : ℚ) / 32768

/-- The 480 normalized samples the code extracts from one 960-byte frame
(noise_filter.go lines 209–214). -/
def frameSamples (frame : List Nat) : List ℚ :=
  (List.range rnnoiseFrameSize).map (sampleAt frame)

/-- The result of `rnnoise.NoiseFilter.FilterStream` (external library):
`(denoisedFrame, _, keepFrame, err)`.  `err = true` models a non-nil error. -/
structure FilterStreamResult where
  denoised : List ℚ
  keep : Bool
  err : Bool

/-- The abstract engine: `FilterStream(samples, threshold)`. -/
def Engine : Type := List ℚ → ℚ → FilterStreamResult

/-- The in-range clamp of noise_filter.go lines 224–229:
`clampedSample := sample * 32768.0` clamped to `[-32768, 32767]`. -/
def clampDenormalize (s : ℚ) : ℚ :=
  if s * 32768 > 32767 then 32767
  else if s * 32768 < -32768 then -32768
  else s * 32768

/-- `for i, sample := range denoisedFrame { samples[i] = clamp(sample*32768) }`
(noise_filter.go lines 222–231): overwrite the prefix of `samples` with the
clamped, de-normalized engine output.  (When the engine honours its contract
`denoised.length = samples.length` this replaces the whole list.) -/
def overwriteWith (den : List ℚ) (samples : List ℚ) : List ℚ :=
  (den.map clampDenormalize).take samples.length ++ samples.drop den.length

/-- The branch on the engine result inside the frame loop
(noise_filter.go lines 217–239): on success with `keepFrame` the clamped,
de-normalized engine output replaces the samples; on `!keepFrame` the
(still normalized) samples are scaled by `0.1`; otherwise (an engine error
with `keepFrame` true, or no denoiser) the samples are left as they are. -/
def suppressSamples (fs : Engine) (threshold : ℚ) (denoiser : Bool)
    (samples : List ℚ) : List ℚ :=
  if denoiser then
    if (fs samples threshold).err = false ∧ (fs samples threshold).keep = true then
      overwriteWith (fs samples threshold).denoised samples
    else if (fs samples threshold).keep = false then
      samples.map (fun s => s * (1 / 10))
    else samples
  else samples

/-- One iteration of the frame loop of `processAudioPayload`
(noise_filter.go lines 205–252): decode one 960-byte frame to normalized
samples, consult the engine, and re-encode the samples to 960 bytes. -/
def processFrame (fs : Engine) (threshold : ℚ) (denoiser : Bool) (frame : List Nat) : List Nat :=
  pairJoin (suppressSamples fs threshold denoiser (frameSamples frame))
    (fun s => bytePairOfInt16 (truncToInt s))

theorem pairJoin_length (l : List ℚ) (f : ℚ → List Nat)
    (hf : ∀ s, (f s).length = 2) : (pairJoin l f).length = 2 * l.length := by
  induction l with
  | nil => simp [pairJoin]
  | cons x xs ih =>
    simp only [pairJoin, List.flatMap_cons] at *
    simp only [List.length_append, hf, ih, List.length_cons]
    ring

theorem frameSamples_length (frame : List Nat) :
    (frameSamples frame).length = rnnoiseFrameSize := by
  simp [frameSamples]

theorem overwriteWith_length (den samples : List ℚ) :
    (overwriteWith den samples).length = samples.length := by
  simp only [overwriteWith, List.length_append, List.length_take, List.length_map,
    List.length_drop]
  omega

theorem suppressSamples_length (fs : Engine) (threshold : ℚ) (denoiser : Bool)
    (samples : List ℚ) :
    (suppressSamples fs threshold denoiser samples).length = samples.length := by
  unfold suppressSamples
  split
  · split
    · exact overwriteWith_length _ _
    · split <;> simp
  · rfl

/-- Every frame the loop emits has exactly `rnnoiseFrameBytes` bytes,
whatever the engine does. -/
theorem processFrame_length (fs : Engine) (threshold : ℚ) (denoiser : Bool)
    (frame : List Nat) :
    (processFrame fs threshold denoiser frame).length = rnnoiseFrameBytes := by
  unfold processFrame
  rw [pairJoin_length]
  · rw [suppressSamples_length, frameSamples_length]
    decide
  · intro s
    simp [bytePairOfInt16]

/-- The `for len(r.buffer) >= rnnoiseFrameBytes` loop of `processAudioPayload`
(noise_filter.go lines 205–252): repeatedly slice the first 960 bytes off the
buffer, process them as one frame, and append the result to the emitted data.
Returns the concatenation of the processed frames and the remaining
sub-frame buffer. -/
def drainFrames (fs : Engine) (threshold : ℚ) (denoiser : Bool)
    (buf : List Nat) : List Nat × List Nat :=
  if _h : rnnoiseFrameBytes ≤ buf.length then
    let rest := drainFrames fs threshold denoiser (buf.drop rnnoiseFrameBytes)
    (processFrame fs threshold denoiser (buf.take rnnoiseFrameBytes) ++ rest.1, rest.2)
  else ([], buf)
termination_by buf.length
decreasing_by
  simp only [List.length_drop]
  have : 0 < rnnoiseFrameBytes := by decide
  omega

/-- `processAudioPayload` (noise_filter.go lines 189–261): given the current
accumulator `buffer` and an incoming `payload`, return the emitted bytes and
the new accumulator.  Payloads shorter than one frame bypass the accumulator
(lines 194–197); otherwise the payload is appended to the accumulator, all
complete frames are drained, and any sub-frame remainder is appended to the
output while the accumulator is cleared (lines 254–258). -/
def processAudioPayload (fs : Engine) (threshold : ℚ) (denoiser : Bool)
    (buffer payload : List Nat) : List Nat × List Nat :=
  if payload.length < rnnoiseFrameBytes then (payload, buffer)
  else
    let buf := buffer ++ payload
    let drained := drainFrames fs threshold denoiser buf
    if 0 < drained.2.length then (drained.1 ++ drained.2, [])
    else (drained.1, drained.2)

theorem drainFrames_stop (fs : Engine) (threshold : ℚ) (denoiser : Bool)
    (buf : List Nat) (h : buf.length < rnnoiseFrameBytes) :
    drainFrames fs threshold denoiser buf = ([], buf) := by
  rw [drainFrames]
  rw [dif_neg (by omega)]

theorem drainFrames_step (fs : Engine) (threshold : ℚ) (denoiser : Bool)
    (buf : List Nat) (h : rnnoiseFrameBytes ≤ buf.length) :
    drainFrames fs threshold denoiser buf =
      (processFrame fs threshold denoiser (buf.take rnnoiseFrameBytes) ++
        (drainFrames fs threshold denoiser (buf.drop rnnoiseFrameBytes)).1,
       (drainFrames fs threshold denoiser (buf.drop rnnoiseFrameBytes)).2) := by
  rw [drainFrames]
  rw [dif_pos h]

/-- The remainder left by the drain loop is the tail of the buffer past the
last complete frame. -/
theorem drainFrames_snd (fs : Engine) (threshold : ℚ) (denoiser : Bool)
    (buf : List Nat) :
    (drainFrames fs threshold denoiser buf).2 =
      buf.drop (rnnoiseFrameBytes * (buf.length / rnnoiseFrameBytes)) := by
  by_cases h : rnnoiseFrameBytes ≤ buf.length
  · rw [drainFrames_step fs threshold denoiser buf h]
    have ih := drainFrames_snd fs threshold denoiser (buf.drop rnnoiseFrameBytes)
    rw [ih, List.drop_drop, List.length_drop]
    congr 1
    have h960 : (0:Nat) < rnnoiseFrameBytes := by decide
    have : buf.length / rnnoiseFrameBytes =
        (buf.length - rnnoiseFrameBytes) / rnnoiseFrameBytes + 1 := by
      rw [Nat.div_eq_sub_div h960 (by omega)]
    rw [this]
    ring
  · rw [drainFrames_stop fs threshold denoiser buf (by omega)]
    have : buf.length / rnnoiseFrameBytes = 0 := Nat.div_eq_of_lt (by omega)
    simp [this]
termination_by buf.length
decreasing_by
  simp only [List.length_drop]
  have : 0 < rnnoiseFrameBytes := by decide
  omega

/-- The drained output consists of exactly one processed frame per complete
frame in the buffer. -/
theorem drainFrames_fst_length (fs : Engine) (threshold : ℚ) (denoiser : Bool)
    (buf : List Nat) :
    (drainFrames fs threshold denoiser buf).1.length =
      rnnoiseFrameBytes * (buf.length / rnnoiseFrameBytes) := by
  by_cases h : rnnoiseFrameBytes ≤ buf.length
  · rw [drainFrames_step fs threshold denoiser buf h]
    have ih := drainFrames_fst_length fs threshold denoiser (buf.drop rnnoiseFrameBytes)
    simp only [List.length_append, processFrame_length, ih, List.length_drop]
    have h960 : (0:Nat) < rnnoiseFrameBytes := by decide
    have : buf.length / rnnoiseFrameBytes =
        (buf.length - rnnoiseFrameBytes) / rnnoiseFrameBytes + 1 := by
      rw [Nat.div_eq_sub_div h960 (by omega)]
    rw [this]
    ring
  · rw [drainFrames_stop fs threshold denoiser buf (by omega)]
    have : buf.length / rnnoiseFrameBytes = 0 := Nat.div_eq_of_lt (by omega)
    simp [this]
termination_by buf.length
decreasing_by
  simp only [List.length_drop]
  have : 0 < rnnoiseFrameBytes := by decide
  omega

theorem processAudioPayload_bypass (fs : Engine) (threshold : ℚ) (denoiser : Bool)
    (buffer payload : List Nat) (h : payload.length < rnnoiseFrameBytes) :
    processAudioPayload fs threshold denoiser buffer payload = (payload, buffer) := by
  rw [processAudioPayload, if_pos h]

/-- For a payload of at least one frame, `processAudioPayload` emits every
processed frame followed by the raw sub-frame remainder, and clears the
accumulator. -/
theorem processAudioPayload_drain (fs : Engine) (threshold : ℚ) (denoiser : Bool)
    (buffer payload : List Nat) (h : rnnoiseFrameBytes ≤ payload.length) :
    processAudioPayload fs threshold denoiser buffer payload =
      ((drainFrames fs threshold denoiser (buffer ++ payload)).1 ++
        (buffer ++ payload).drop
          (rnnoiseFrameBytes * ((buffer ++ payload).length / rnnoiseFrameBytes)), []) := by
  rw [processAudioPayload, if_neg (by omega)]
  simp only [drainFrames_snd]
  split
  · rfl
  · rename_i hlen
    have hnil : (buffer ++ payload).drop
        (rnnoiseFrameBytes * ((buffer ++ payload).length / rnnoiseFrameBytes)) = [] := by
      rw [List.drop_eq_nil_iff]
      simp only [List.length_drop] at hlen ⊢
      omega
    rw [hnil, List.append_nil]

theorem processAudioPayload_buffer_empty (fs : Engine) (threshold : ℚ)
    (denoiser : Bool) (buffer payload : List Nat) :
    (processAudioPayload fs threshold denoiser buffer payload).2 = [] ∨
    (processAudioPayload fs threshold denoiser buffer payload).2 = buffer := by
  by_cases h : payload.length < rnnoiseFrameBytes
  · rw [processAudioPayload_bypass fs threshold denoiser buffer payload h]
    right; rfl
  · rw [processAudioPayload_drain fs threshold denoiser buffer payload (by omega)]
    left; rfl

/-- The header produced by `rtp.Packet.Unmarshal` and consumed by
`rtp.Packet.Marshal` is treated as abstract by the filter (type parameter `H`): the code
copies `packet.Header` into the new packet untouched. -/
structure ParsedPacket (H : Type) where
  header : H
  payload : List Nat

/-- The mutable state of a `noiseFilterReader`: whether `r.denoiser` is
non-nil, a ghost count of `rnnoise.NewNoiseFilter` calls, and the byte
accumulator `r.buffer`. -/
structure ReaderState where
  denoiser : Bool
  attempts : Nat
  buffer : List Nat

/-- What `noiseFilterReader.Read` hands back to its caller after the inner
transport read succeeded: the contents of the caller's buffer, the returned
length, whether a non-nil error is returned, and the updated filter state. -/
structure ReadResult where
  out : List Nat
  n : Nat
  err : Bool
  st : ReaderState

/-- The lazy-initialization step of `noiseFilterReader.Read`
(noise_filter.go lines 134–146): if `r.denoiser` is nil, attempt
`rnnoise.NewNoiseFilter` (one more creation attempt, succeeding iff the
oracle `createOk` allows this attempt); returns the updated state and whether
a denoiser is now present. -/
def initDenoiser (createOk : Nat → Bool) (st : ReaderState) : ReaderState × Bool :=
  if st.denoiser then (st, true)
  else ({ st with denoiser := createOk st.attempts, attempts := st.attempts + 1 },
    createOk st.attempts)

/-- `noiseFilterReader.Read` (noise_filter.go lines 128–186) after a
successful inner `r.reader.Read` that filled the caller's buffer `b` with an
`n`-byte packet:

1. if `r.denoiser` is nil, attempt `rnnoise.NewNoiseFilter`; on failure
   return the packet unprocessed (lines 134–146);
2. `packet.Unmarshal(b[:n])`; on failure return the packet unprocessed
   (lines 152–156);
3. if the payload is non-empty, run it through `processAudioPayload`,
   re-marshal with the original header, and copy the result into `b` only if
   it fits, otherwise return the original packet and length (lines 159–183).

All paths return a nil error to the caller. -/
def noiseFilterRead {H : Type}
    (createOk : Nat → Bool)
    (unmarshal : List Nat → Option (ParsedPacket H))
    (marshal : H → List Nat → Option (List Nat))
    (fs : Engine) (threshold : ℚ)
    (st : ReaderState) (b : List Nat) (n : Nat) : ReadResult :=
  let init := initDenoiser createOk st
  if init.2 = false then ⟨b, n, false, init.1⟩
  else
    match unmarshal (b.take n) with
    | none => ⟨b, n, false, init.1⟩
    | some packet =>
      if packet.payload.length = 0 then ⟨b, n, false, init.1⟩
      else
        let processed :=
          processAudioPayload fs threshold init.1.denoiser init.1.buffer packet.payload
        let st2 := { init.1 with buffer := processed.2 }
        match marshal packet.header processed.1 with
        | none => ⟨b, n, false, st2⟩
        | some newData =>
          if newData.length ≤ b.length then
            ⟨newData ++ b.drop newData.length, newData.length, false, st2⟩
          else ⟨b, n, false, st2⟩

theorem int16OfUint16_lower (u : Nat) : -32768 ≤ int16OfUint16 u := by
  unfold int16OfUint16
  split <;> omega

theorem int16OfUint16_upper (u : Nat) : int16OfUint16 u ≤ 32767 := by
  unfold int16OfUint16
  have := Nat.mod_lt u (y := 65536) (by omega)
  split <;> omega

theorem int16_roundtrip (v : Int) (h1 : -32768 ≤ v) (h2 : v ≤ 32767) :
    int16OfUint16 (uint16OfInt16 v) = v := by
  unfold int16OfUint16 uint16OfInt16
  have hv : v % 65536 = v ∨ v % 65536 = v + 65536 := by omega
  split <;> omega

theorem truncToInt_eq_zero (q : ℚ) (h1 : -1 < q) (h2 : q < 1) : truncToInt q = 0 := by
  unfold truncToInt
  split
  · rename_i h0
    have hub : ⌊q⌋ < 1 := by
      rw [Int.floor_lt]
      exact_mod_cast h2
    have hlb : 0 ≤ ⌊q⌋ := Int.floor_nonneg.mpr h0
    omega
  · rename_i h0
    have hub : ⌈q⌉ ≤ 0 := Int.ceil_le.mpr (by push_cast; linarith [le_of_not_le h0])
    have hlb : -1 < ⌈q⌉ := by
      by_contra hc
      push_neg at hc
      have h3 : ⌈q⌉ ≤ -1 := by omega
      have h4 : (⌈q⌉ : ℚ) ≤ -1 := by exact_mod_cast h3
      linarith [Int.le_ceil q]
    omega

theorem truncToInt_lower (q : ℚ) (a : Int) (h : (a : ℚ) ≤ q) : a ≤ truncToInt q := by
  unfold truncToInt
  split
  · exact Int.le_floor.mpr h
  · have h1 : (a : ℚ) ≤ ⌈q⌉ := le_trans h (Int.le_ceil q)
    exact_mod_cast h1

theorem truncToInt_upper (q : ℚ) (b : Int) (h : q ≤ (b : ℚ)) : truncToInt q ≤ b := by
  unfold truncToInt
  split
  · have h1 : (⌊q⌋ : ℚ) ≤ b := le_trans (Int.floor_le q) h
    exact_mod_cast h1
  · exact Int.ceil_le.mpr h

theorem sampleAt_lower (frame : List Nat) (i : Nat) : -1 ≤ sampleAt frame i := by
  unfold sampleAt
  have h := int16OfUint16_lower (uint16OfBytes (frame.getD (2 * i) 0) (frame.getD (2 * i + 1) 0))
  have h2 : (-32768 : ℚ) ≤
      ((int16OfUint16 (uint16OfBytes (frame.getD (2 * i) 0) (frame.getD (2 * i + 1) 0)) : ℚ)) := by
    exact_mod_cast h
  rw [le_div_iff₀ (by norm_num : (0:ℚ) < 32768)]
  linarith

theorem sampleAt_upper (frame : List Nat) (i : Nat) : sampleAt frame i < 1 := by
  unfold sampleAt
  have h := int16OfUint16_upper (uint16OfBytes (frame.getD (2 * i) 0) (frame.getD (2 * i + 1) 0))
  have h2 : ((int16OfUint16 (uint16OfBytes (frame.getD (2 * i) 0) (frame.getD (2 * i + 1) 0)) : ℚ)) ≤ 32767 := by
    exact_mod_cast h
  rw [div_lt_iff₀ (by norm_num : (0:ℚ) < 32768)]
  linarith

theorem frameSamples_mem_bounds (frame : List Nat) (s : ℚ)
    (hs : s ∈ frameSamples frame) : -1 ≤ s ∧ s < 1 := by
  unfold frameSamples at hs
  obtain ⟨i, _, rfl⟩ := List.mem_map.mp hs
  exact ⟨sampleAt_lower frame i, sampleAt_upper frame i⟩

theorem bytePairOfInt16_zero : bytePairOfInt16 0 = [0, 0] := by decide

theorem pairJoin_trunc_zero (l : List ℚ) (h : ∀ s ∈ l, -1 < s ∧ s < 1) :
    pairJoin l (fun s => bytePairOfInt16 (truncToInt s)) =
      List.replicate (2 * l.length) 0 := by
  induction l with
  | nil => simp [pairJoin]
  | cons x xs ih =>
    have hx := h x (by simp)
    have hxs : ∀ s ∈ xs, -1 < s ∧ s < 1 := fun s hs => h s (by simp [hs])
    simp only [pairJoin, List.flatMap_cons] at *
    rw [truncToInt_eq_zero x hx.1 hx.2, bytePairOfInt16_zero, ih hxs, List.length_cons]
    rw [show 2 * (xs.length + 1) = 2 + 2 * xs.length by ring]
    rw [List.replicate_add]
    rfl

/-- A 960-byte test frame all of whose 480 samples have the same two wire
bytes `a` (low) and `b` (high). -/
def constFrame (a b : Nat) : List Nat :=
  pairJoin (List.replicate rnnoiseFrameSize 0) (fun _ => [a, b])

theorem pairJoinConst_getD (x : ℚ) (a b : Nat) (n : Nat) :
    ∀ i, i < n →
      (pairJoin (List.replicate n x) (fun _ => [a, b])).getD (2 * i) 0 = a ∧
      (pairJoin (List.replicate n x) (fun _ => [a, b])).getD (2 * i + 1) 0 = b := by
  induction n with
  | zero => intro i hi; omega
  | succ m ih =>
    intro i hi
    rw [List.replicate_succ]
    simp only [pairJoin, List.flatMap_cons]
    cases i with
    | zero => constructor <;> rfl
    | succ j =>
      have hj : j < m := by omega
      have h2 : 2 * (j + 1) = 2 * j + 1 + 1 := by ring
      rw [h2]
      constructor
      · show (List.getD (a :: b :: _) (2 * j + 1 + 1) 0) = a
        rw [List.getD_cons_succ, List.getD_cons_succ]
        exact (ih j hj).1
      · show (List.getD (a :: b :: _) (2 * j + 1 + 1 + 1) 0) = b
        rw [List.getD_cons_succ, List.getD_cons_succ]
        exact (ih j hj).2

theorem constFrame_length (a b : Nat) : (constFrame a b).length = rnnoiseFrameBytes := by
  unfold constFrame
  rw [pairJoin_length _ _ (by intro s; rfl), List.length_replicate]
  decide

theorem sampleAt_constFrame (a b : Nat) (i : Nat) (hi : i < rnnoiseFrameSize) :
    sampleAt (constFrame a b) i = (int16OfUint16 (uint16OfBytes a b) : ℚ) / 32768 := by
  unfold sampleAt constFrame
  rw [(pairJoinConst_getD 0 a b rnnoiseFrameSize i hi).1,
    (pairJoinConst_getD 0 a b rnnoiseFrameSize i hi).2]

theorem frameSamples_constFrame (a b : Nat) (s : ℚ)
    (hs : s ∈ frameSamples (constFrame a b)) :
    s = (int16OfUint16 (uint16OfBytes a b) : ℚ) / 32768 := by
  unfold frameSamples at hs
  obtain ⟨i, hi, rfl⟩ := List.mem_map.mp hs
  exact sampleAt_constFrame a b i (List.mem_range.mp hi)

/-- With a denoiser attached and the engine reporting `keepFrame == false`,
the frame loop emits all-zero bytes for the frame: the samples are still
normalized to `[-1, 1)` when they are attenuated, so the truncating `int16`
conversion maps every one of them to 0. -/
theorem processFrame_keepFalse (fs : Engine) (threshold : ℚ) (frame : List Nat)
    (hk : (fs (frameSamples frame) threshold).keep = false) :
    processFrame fs threshold true frame = List.replicate rnnoiseFrameBytes 0 := by
  unfold processFrame suppressSamples
  rw [if_pos rfl, if_neg (by simp [hk]), if_pos hk]
  rw [pairJoin_trunc_zero]
  · rw [List.length_map, frameSamples_length]
    rfl
  · intro s hs
    obtain ⟨t, ht, rfl⟩ := List.mem_map.mp hs
    have hb := frameSamples_mem_bounds frame t ht
    constructor <;> nlinarith [hb.1, hb.2]

/-- With a denoiser attached, the engine returning an error together with
`keepFrame == true`, and no sample at exactly `-32768`, the frame loop also
emits all-zero bytes: the samples are handed to the final conversion still
normalized, so truncation zeroes them instead of passing the original frame
through. -/
theorem processFrame_errKeep (fs : Engine) (threshold : ℚ) (frame : List Nat)
    (he : (fs (frameSamples frame) threshold).err = true)
    (hk : (fs (frameSamples frame) threshold).keep = true)
    (hs : ∀ s ∈ frameSamples frame, -1 < s) :
    processFrame fs threshold true frame = List.replicate rnnoiseFrameBytes 0 := by
  unfold processFrame suppressSamples
  rw [if_pos rfl, if_neg (by simp [he]), if_neg (by simp [hk])]
  rw [pairJoin_trunc_zero]
  · rw [frameSamples_length]
    rfl
  · intro s hsm
    exact ⟨hs s hsm, (frameSamples_mem_bounds frame s hsm).2⟩

theorem replicate_getD_zero (n : Nat) (hn : 0 < n) :
    (List.replicate n (0 : Nat)).getD 0 0 = 0 := by
  cases n with
  | zero => omega
  | succ m => rfl

theorem constFrame_getD_zero (a b : Nat) : (constFrame a b).getD 0 0 = a := by
  have h := (pairJoinConst_getD 0 a b rnnoiseFrameSize 0 (by decide)).1
  simpa using h

/-- C3: for a frame the engine classifies as non-voice (`keepFrame == false`,
no error), the code emits silence (all-zero samples), not the input frame
attenuated to 10%: the attenuation is applied to the still-normalized floats
and the truncating `int16` conversion zeroes every sample.  Failing input: a
frame whose 480 samples are all 1000 (wire bytes 232, 3); the claimed output
has samples 100 (wire bytes 100, 0). -/
theorem C3_noise_frame_silenced_not_attenuated :
    processFrame (fun _ _ => ⟨[], false, false⟩) (1 / 2) true (constFrame 232 3) =
      List.replicate rnnoiseFrameBytes 0 ∧
    processFrame (fun _ _ => ⟨[], false, false⟩) (1 / 2) true (constFrame 232 3) ≠
      constFrame 100 0 := by
  have h := processFrame_keepFalse (fun _ _ => ⟨[], false, false⟩) (1 / 2)
    (constFrame 232 3) rfl
  refine ⟨h, ?_⟩
  rw [h]
  intro hc
  have h0 := congrArg (fun l => List.getD l 0 0) hc
  simp only at h0
  rw [constFrame_getD_zero, replicate_getD_zero rnnoiseFrameBytes (by decide)] at h0
  exact absurd h0 (by decide)

/-- C4: when the per-frame engine call fails (`err != nil`, `keepFrame`
true), the code does not pass the frame through byte-identically: the
pre-suppression samples are still normalized to `[-1, 1)` when they are
re-encoded, so the frame comes out as all zeros.  Failing input: a frame
whose 480 samples are all 1000 (wire bytes 232, 3). -/
theorem C4_engine_error_frame_zeroed :
    processFrame (fun _ _ => ⟨[], true, true⟩) (1 / 2) true (constFrame 232 3) =
      List.replicate rnnoiseFrameBytes 0 ∧
    processFrame (fun _ _ => ⟨[], true, true⟩) (1 / 2) true (constFrame 232 3) ≠
      constFrame 232 3 := by
  have hs : ∀ s ∈ frameSamples (constFrame 232 3), -1 < s := by
    intro s hsm
    rw [frameSamples_constFrame 232 3 s hsm]
    norm_num [uint16OfBytes, int16OfUint16]
  have h := processFrame_errKeep (fun _ _ => ⟨[], true, true⟩) (1 / 2)
    (constFrame 232 3) rfl rfl hs
  refine ⟨h, ?_⟩
  rw [h]
  intro hc
  have h0 := congrArg (fun l => List.getD l 0 0) hc
  simp only at h0
  rw [constFrame_getD_zero, replicate_getD_zero rnnoiseFrameBytes (by decide)] at h0
  exact absurd h0 (by decide)

/-- C1 counterexample: feed the 961-byte payload `constFrame 232 3 ++ [7]`
(one complete frame plus one leftover byte) to `processAudioPayload` with an
empty accumulator.  The claim predicts 960 output bytes (one frame) with the
leftover byte `[7]` retained in the accumulator; the code emits 961 bytes
(the leftover byte is appended to the output) and clears the accumulator. -/
theorem C1_counterexample :
    ¬ ((processAudioPayload (fun _ _ => ⟨[], false, false⟩) (1 / 2) true []
          (constFrame 232 3 ++ [7])).1.length = rnnoiseFrameBytes * 1 ∧
       (processAudioPayload (fun _ _ => ⟨[], false, false⟩) (1 / 2) true []
          (constFrame 232 3 ++ [7])).2 = [7]) := by
  intro hcl
  have hlen : (constFrame 232 3 ++ [7]).length = 961 := by
    rw [List.length_append, constFrame_length]
    rfl
  have h : rnnoiseFrameBytes ≤ (constFrame 232 3 ++ [7]).length := by
    rw [hlen]; decide
  have hd := processAudioPayload_drain (fun _ _ => ⟨[], false, false⟩) (1 / 2) true []
    (constFrame 232 3 ++ [7]) h
  rw [List.nil_append] at hd
  have h1 := hcl.1
  rw [hd] at h1
  rw [List.length_append, drainFrames_fst_length, List.length_drop, hlen] at h1
  revert h1
  decide

/-- C1 (amended): any leftover bytes smaller than one frame left after
draining complete frames are appended unprocessed to the emitted output and
the accumulator is cleared: the total output of `processAudioPayload` is the
number of complete frames times `frameBytes` plus the remainder, which forms
the verbatim tail of the output, and the accumulator is empty afterwards. -/
theorem C1_remainder_flushed_to_output (fs : Engine) (threshold : ℚ)
    (denoiser : Bool) (buffer payload : List Nat)
    (h : rnnoiseFrameBytes ≤ payload.length) :
    (processAudioPayload fs threshold denoiser buffer payload).1.length =
      rnnoiseFrameBytes * ((buffer ++ payload).length / rnnoiseFrameBytes) +
        (buffer ++ payload).length % rnnoiseFrameBytes ∧
    (processAudioPayload fs threshold denoiser buffer payload).2 = [] ∧
    (processAudioPayload fs threshold denoiser buffer payload).1.drop
        (rnnoiseFrameBytes * ((buffer ++ payload).length / rnnoiseFrameBytes)) =
      (buffer ++ payload).drop
        (rnnoiseFrameBytes * ((buffer ++ payload).length / rnnoiseFrameBytes)) := by
  rw [processAudioPayload_drain fs threshold denoiser buffer payload h]
  refine ⟨?_, rfl, ?_⟩
  · rw [List.length_append, drainFrames_fst_length, List.length_drop]
    have h960 : rnnoiseFrameBytes = 960 := rfl
    rw [h960]
    omega
  · rw [← drainFrames_fst_length fs threshold denoiser (buffer ++ payload)]
    exact List.drop_left _ _

/-- Witness for `C1_remainder_flushed_to_output` at the concrete payload
`constFrame 232 3 ++ [7]`. -/
theorem C1_remainder_flushed_to_output_witness :
    rnnoiseFrameBytes ≤ (constFrame 232 3 ++ [7]).length ∧
    ((processAudioPayload (fun _ _ => ⟨[], false, false⟩) (1 / 2) true []
        (constFrame 232 3 ++ [7])).1.length =
      rnnoiseFrameBytes * (([] ++ (constFrame 232 3 ++ [7])).length / rnnoiseFrameBytes) +
        ([] ++ (constFrame 232 3 ++ [7])).length % rnnoiseFrameBytes ∧
    (processAudioPayload (fun _ _ => ⟨[], false, false⟩) (1 / 2) true []
        (constFrame 232 3 ++ [7])).2 = [] ∧
    (processAudioPayload (fun _ _ => ⟨[], false, false⟩) (1 / 2) true []
        (constFrame 232 3 ++ [7])).1.drop
        (rnnoiseFrameBytes * (([] ++ (constFrame 232 3 ++ [7])).length / rnnoiseFrameBytes)) =
      ([] ++ (constFrame 232 3 ++ [7])).drop
        (rnnoiseFrameBytes * (([] ++ (constFrame 232 3 ++ [7])).length / rnnoiseFrameBytes))) := by
  have hlen : (constFrame 232 3 ++ [7]).length = 961 := by
    rw [List.length_append, constFrame_length]
    rfl
  have h : rnnoiseFrameBytes ≤ (constFrame 232 3 ++ [7]).length := by
    rw [hlen]; decide
  exact ⟨h, C1_remainder_flushed_to_output (fun _ _ => ⟨[], false, false⟩) (1 / 2) true []
    (constFrame 232 3 ++ [7]) h⟩

theorem initDenoiser_buffer (createOk : Nat → Bool) (st : ReaderState) :
    (initDenoiser createOk st).1.buffer = st.buffer := by
  unfold initDenoiser
  split <;> rfl

theorem noiseFilterRead_buffer_cases {H : Type} (createOk : Nat → Bool)
    (unmarshal : List Nat → Option (ParsedPacket H))
    (marshal : H → List Nat → Option (List Nat))
    (fs : Engine) (threshold : ℚ) (st : ReaderState) (b : List Nat) (n : Nat) :
    (noiseFilterRead createOk unmarshal marshal fs threshold st b n).st.buffer = [] ∨
    (noiseFilterRead createOk unmarshal marshal fs threshold st b n).st.buffer =
      st.buffer := by
  unfold noiseFilterRead
  dsimp only
  have hib := initDenoiser_buffer createOk st
  split
  · right; exact hib
  · split
    · right; exact hib
    · rename_i packet heq
      split
      · right; exact hib
      · have hp := processAudioPayload_buffer_empty fs threshold
          (initDenoiser createOk st).1.denoiser (initDenoiser createOk st).1.buffer
          packet.payload
        rw [hib] at hp
        split
        · simpa [hib] using hp
        · split
          · simpa [hib] using hp
          · simpa [hib] using hp

theorem noiseFilterRead_st_denoiser {H : Type} (createOk : Nat → Bool)
    (unmarshal : List Nat → Option (ParsedPacket H))
    (marshal : H → List Nat → Option (List Nat))
    (fs : Engine) (threshold : ℚ) (st : ReaderState) (b : List Nat) (n : Nat) :
    (noiseFilterRead createOk unmarshal marshal fs threshold st b n).st.denoiser =
      (initDenoiser createOk st).1.denoiser := by
  unfold noiseFilterRead
  dsimp only
  split
  · rfl
  · split
    · rfl
    · split
      · rfl
      · split
        · rfl
        · split <;> rfl

theorem noiseFilterRead_st_attempts {H : Type} (createOk : Nat → Bool)
    (unmarshal : List Nat → Option (ParsedPacket H))
    (marshal : H → List Nat → Option (List Nat))
    (fs : Engine) (threshold : ℚ) (st : ReaderState) (b : List Nat) (n : Nat) :
    (noiseFilterRead createOk unmarshal marshal fs threshold st b n).st.attempts =
      (initDenoiser createOk st).1.attempts := by
  unfold noiseFilterRead
  dsimp only
  split
  · rfl
  · split
    · rfl
    · split
      · rfl
      · split
        · rfl
        · split <;> rfl

theorem noiseFilterRead_createFail {H : Type} (createOk : Nat → Bool)
    (unmarshal : List Nat → Option (ParsedPacket H))
    (marshal : H → List Nat → Option (List Nat))
    (fs : Engine) (threshold : ℚ) (st : ReaderState) (b : List Nat) (n : Nat)
    (hd : st.denoiser = false) (hf : createOk st.attempts = false) :
    noiseFilterRead createOk unmarshal marshal fs threshold st b n =
      ⟨b, n, false,
        { st with denoiser := createOk st.attempts, attempts := st.attempts + 1 }⟩ := by
  unfold noiseFilterRead initDenoiser
  rw [hd]
  rw [if_neg (show ¬(false = true) by simp)]
  dsimp only
  rw [if_pos hf]

/-- The fully active path of `noiseFilterRead`: a denoiser is available, the
packet parses, the payload is non-empty, the new packet marshals, and it
fits the caller's buffer. -/
theorem noiseFilterRead_process {H : Type} (createOk : Nat → Bool)
    (unmarshal : List Nat → Option (ParsedPacket H))
    (marshal : H → List Nat → Option (List Nat))
    (fs : Engine) (threshold : ℚ) (st : ReaderState) (b : List Nat) (n : Nat)
    (packet : ParsedPacket H) (newData : List Nat)
    (hd : (initDenoiser createOk st).2 = true)
    (hu : unmarshal (b.take n) = some packet)
    (hne : packet.payload.length ≠ 0)
    (hm : marshal packet.header
      (processAudioPayload fs threshold (initDenoiser createOk st).1.denoiser
        (initDenoiser createOk st).1.buffer packet.payload).1 = some newData)
    (hfit : newData.length ≤ b.length) :
    noiseFilterRead createOk unmarshal marshal fs threshold st b n =
      ⟨newData ++ b.drop newData.length, newData.length, false,
        { (initDenoiser createOk st).1 with
          buffer := (processAudioPayload fs threshold
            (initDenoiser createOk st).1.denoiser
            (initDenoiser createOk st).1.buffer packet.payload).2 }⟩ := by
  unfold noiseFilterRead
  dsimp only
  rw [if_neg (by rw [hd]; exact fun hc => Bool.noConfusion hc), hu]
  dsimp only
  rw [if_neg hne, hm]
  dsimp only
  rw [if_pos hfit]

/-- C10 (implicit invariant): after every completed `Read` the per-stream
byte accumulator is empty — short payloads bypass it and any sub-frame
remainder is flushed into the output with the accumulator cleared, so no
bytes are carried across packets. -/
theorem C10_accumulator_empty_after_read {H : Type} (createOk : Nat → Bool)
    (unmarshal : List Nat → Option (ParsedPacket H))
    (marshal : H → List Nat → Option (List Nat))
    (fs : Engine) (threshold : ℚ) (st : ReaderState) (b : List Nat) (n : Nat)
    (h : st.buffer = []) :
    (noiseFilterRead createOk unmarshal marshal fs threshold st b n).st.buffer = [] := by
  rcases noiseFilterRead_buffer_cases createOk unmarshal marshal fs threshold st b n with
    hc | hc
  · exact hc
  · rw [hc, h]

/-- Witness for `C10_accumulator_empty_after_read` at a concrete
instantiation. -/
theorem C10_accumulator_empty_after_read_witness :
    (ReaderState.mk false 0 []).buffer = [] ∧
    (noiseFilterRead (fun _ => false)
      (fun x => some (ParsedPacket.mk (H := List Nat) [] x))
      (fun h p => some (h ++ p)) (fun _ _ => ⟨[], false, false⟩) (1 / 2)
      (ReaderState.mk false 0 []) [1, 2, 3] 3).st.buffer = [] :=
  ⟨rfl, C10_accumulator_empty_after_read (fun _ => false)
    (fun x => some (ParsedPacket.mk (H := List Nat) [] x))
    (fun h p => some (h ++ p)) (fun _ _ => ⟨[], false, false⟩) (1 / 2)
    (ReaderState.mk false 0 []) [1, 2, 3] 3 rfl⟩

/-- C6: a packet whose payload is shorter than one frame is returned with
exactly its input length and byte-identical contents, and the accumulator is
untouched (given that the RTP layer round-trips the packet: re-marshalling
the parsed header with the unmodified payload reproduces the original
bytes). -/
theorem C6_short_payload_passthrough {H : Type} (createOk : Nat → Bool)
    (unmarshal : List Nat → Option (ParsedPacket H))
    (marshal : H → List Nat → Option (List Nat))
    (fs : Engine) (threshold : ℚ) (st : ReaderState) (b : List Nat) (n : Nat)
    (packet : ParsedPacket H)
    (hu : unmarshal (b.take n) = some packet)
    (hlen : packet.payload.length < rnnoiseFrameBytes)
    (hm : marshal packet.header packet.payload = some (b.take n))
    (hn : n ≤ b.length) :
    (noiseFilterRead createOk unmarshal marshal fs threshold st b n).out = b ∧
    (noiseFilterRead createOk unmarshal marshal fs threshold st b n).n = n ∧
    (noiseFilterRead createOk unmarshal marshal fs threshold st b n).err = false ∧
    (noiseFilterRead createOk unmarshal marshal fs threshold st b n).st.buffer =
      st.buffer := by
  have htake : (b.take n).length = n := by
    rw [List.length_take]
    omega
  have hib := initDenoiser_buffer createOk st
  unfold noiseFilterRead
  dsimp only
  split
  · exact ⟨rfl, rfl, rfl, hib⟩
  · rw [hu]
    dsimp only
    split
    · exact ⟨rfl, rfl, rfl, hib⟩
    · rw [processAudioPayload_bypass fs threshold
        (initDenoiser createOk st).1.denoiser (initDenoiser createOk st).1.buffer
        packet.payload hlen]
      dsimp only
      rw [hm]
      dsimp only
      rw [if_pos (by rw [htake]; exact hn)]
      refine ⟨?_, htake, rfl, hib⟩
      rw [htake, List.take_append_drop]

/-- Witness for `C6_short_payload_passthrough`: a 3-byte payload with a
trivial header codec. -/
theorem C6_short_payload_passthrough_witness :
    ((fun x => some (ParsedPacket.mk (H := List Nat) [] x)) (([1, 2, 3] : List Nat).take 3) =
        some (ParsedPacket.mk (H := List Nat) [] [1, 2, 3]) ∧
      (ParsedPacket.mk (H := List Nat) [] [1, 2, 3]).payload.length < rnnoiseFrameBytes ∧
      (3 : Nat) ≤ ([1, 2, 3] : List Nat).length) ∧
    (noiseFilterRead (fun _ => true)
      (fun x => some (ParsedPacket.mk (H := List Nat) [] x))
      (fun h p => some (h ++ p)) (fun _ _ => ⟨[], false, false⟩) (1 / 2)
      (ReaderState.mk true 0 []) [1, 2, 3] 3).out = [1, 2, 3] ∧
    (noiseFilterRead (fun _ => true)
      (fun x => some (ParsedPacket.mk (H := List Nat) [] x))
      (fun h p => some (h ++ p)) (fun _ _ => ⟨[], false, false⟩) (1 / 2)
      (ReaderState.mk true 0 []) [1, 2, 3] 3).n = 3 ∧
    (noiseFilterRead (fun _ => true)
      (fun x => some (ParsedPacket.mk (H := List Nat) [] x))
      (fun h p => some (h ++ p)) (fun _ _ => ⟨[], false, false⟩) (1 / 2)
      (ReaderState.mk true 0 []) [1, 2, 3] 3).err = false ∧
    (noiseFilterRead (fun _ => true)
      (fun x => some (ParsedPacket.mk (H := List Nat) [] x))
      (fun h p => some (h ++ p)) (fun _ _ => ⟨[], false, false⟩) (1 / 2)
      (ReaderState.mk true 0 []) [1, 2, 3] 3).st.buffer =
      (ReaderState.mk true 0 []).buffer :=
  ⟨⟨rfl, by decide, by decide⟩,
    C6_short_payload_passthrough (fun _ => true)
      (fun x => some (ParsedPacket.mk (H := List Nat) [] x))
      (fun h p => some (h ++ p)) (fun _ _ => ⟨[], false, false⟩) (1 / 2)
      (ReaderState.mk true 0 []) [1, 2, 3] 3
      (ParsedPacket.mk (H := List Nat) [] [1, 2, 3]) rfl (by decide) rfl (by decide)⟩

/-- C8: whenever the re-serialized processed packet is longer than the
caller-supplied buffer, `Read` leaves the caller's buffer contents unchanged,
returns the original length, and reports no error. -/
theorem C8_oversized_packet_passthrough {H : Type} (createOk : Nat → Bool)
    (unmarshal : List Nat → Option (ParsedPacket H))
    (marshal : H → List Nat → Option (List Nat))
    (fs : Engine) (threshold : ℚ) (st : ReaderState) (b : List Nat) (n : Nat)
    (packet : ParsedPacket H) (newData : List Nat)
    (hu : unmarshal (b.take n) = some packet)
    (hne : packet.payload.length ≠ 0)
    (hm : marshal packet.header
      (processAudioPayload fs threshold (initDenoiser createOk st).1.denoiser
        (initDenoiser createOk st).1.buffer packet.payload).1 = some newData)
    (hbig : b.length < newData.length) :
    (noiseFilterRead createOk unmarshal marshal fs threshold st b n).out = b ∧
    (noiseFilterRead createOk unmarshal marshal fs threshold st b n).n = n ∧
    (noiseFilterRead createOk unmarshal marshal fs threshold st b n).err = false := by
  unfold noiseFilterRead
  dsimp only
  split
  · exact ⟨rfl, rfl, rfl⟩
  · rw [hu]
    dsimp only
    rw [if_neg hne, hm]
    dsimp only
    rw [if_neg (by omega)]
    exact ⟨rfl, rfl, rfl⟩

/-- Witness for `C8_oversized_packet_passthrough`: a marshaller that pads the
packet beyond the caller's 3-byte buffer. -/
theorem C8_oversized_packet_passthrough_witness :
    ((fun x => some (ParsedPacket.mk (H := List Nat) [] x)) (([5, 6, 7] : List Nat).take 3) =
        some (ParsedPacket.mk (H := List Nat) [] [5, 6, 7]) ∧
      (ParsedPacket.mk (H := List Nat) [] [5, 6, 7]).payload.length ≠ 0 ∧
      ([5, 6, 7] : List Nat).length < ([5, 6, 7] ++ List.replicate 2000 0 : List Nat).length) ∧
    (noiseFilterRead (fun _ => true)
      (fun x => some (ParsedPacket.mk (H := List Nat) [] x))
      (fun h p => some (h ++ p ++ List.replicate 2000 0))
      (fun _ _ => ⟨[], false, false⟩) (1 / 2)
      (ReaderState.mk true 0 []) [5, 6, 7] 3).out = [5, 6, 7] ∧
    (noiseFilterRead (fun _ => true)
      (fun x => some (ParsedPacket.mk (H := List Nat) [] x))
      (fun h p => some (h ++ p ++ List.replicate 2000 0))
      (fun _ _ => ⟨[], false, false⟩) (1 / 2)
      (ReaderState.mk true 0 []) [5, 6, 7] 3).n = 3 ∧
    (noiseFilterRead (fun _ => true)
      (fun x => some (ParsedPacket.mk (H := List Nat) [] x))
      (fun h p => some (h ++ p ++ List.replicate 2000 0))
      (fun _ _ => ⟨[], false, false⟩) (1 / 2)
      (ReaderState.mk true 0 []) [5, 6, 7] 3).err = false := by
  have hbig : (([5, 6, 7] : List Nat)).length <
      ([5, 6, 7] ++ List.replicate 2000 0 : List Nat).length := by
    rw [List.length_append, List.length_replicate]
    decide
  refine ⟨⟨rfl, by decide, hbig⟩, ?_⟩
  exact C8_oversized_packet_passthrough (fun _ => true)
    (fun x => some (ParsedPacket.mk (H := List Nat) [] x))
    (fun h p => some (h ++ p ++ List.replicate 2000 0))
    (fun _ _ => ⟨[], false, false⟩) (1 / 2)
    (ReaderState.mk true 0 []) [5, 6, 7] 3
    (ParsedPacket.mk (H := List Nat) [] [5, 6, 7])
    ([] ++ [5, 6, 7] ++ List.replicate 2000 0) rfl (by decide)
    (by rfl) hbig

/-- C2 (amended): if engine creation fails on a packet, that packet is
returned byte-identical and unprocessed, but the stream is not permanently
degraded: the denoiser stays nil, the creation-attempt counter advances, and
the very next `Read` consults the creation oracle again — so creation IS
re-attempted per packet, and the stream resumes processing if a later
attempt succeeds. -/
theorem C2_creation_failure_retried {H : Type} (createOk : Nat → Bool)
    (unmarshal : List Nat → Option (ParsedPacket H))
    (marshal : H → List Nat → Option (List Nat))
    (fs : Engine) (threshold : ℚ) (st : ReaderState) (b : List Nat) (n : Nat)
    (hd : st.denoiser = false) (hf : createOk st.attempts = false) :
    (noiseFilterRead createOk unmarshal marshal fs threshold st b n).out = b ∧
    (noiseFilterRead createOk unmarshal marshal fs threshold st b n).n = n ∧
    (noiseFilterRead createOk unmarshal marshal fs threshold st b n).err = false ∧
    (noiseFilterRead createOk unmarshal marshal fs threshold st b n).st.denoiser = false ∧
    (noiseFilterRead createOk unmarshal marshal fs threshold st b n).st.attempts =
      st.attempts + 1 ∧
    (noiseFilterRead createOk unmarshal marshal fs threshold st b n).st.buffer =
      st.buffer ∧
    (∀ b2 n2,
      (noiseFilterRead createOk unmarshal marshal fs threshold
        (noiseFilterRead createOk unmarshal marshal fs threshold st b n).st b2 n2).st.denoiser =
      createOk (st.attempts + 1)) := by
  have h1 := noiseFilterRead_createFail createOk unmarshal marshal fs threshold st b n hd hf
  rw [h1]
  refine ⟨rfl, rfl, rfl, hf, rfl, rfl, ?_⟩
  intro b2 n2
  rw [noiseFilterRead_st_denoiser]
  unfold initDenoiser
  rw [if_neg (by rw [hf]; exact fun hc => Bool.noConfusion hc)]

/-- Witness for `C2_creation_failure_retried` with an always-failing
creation oracle. -/
theorem C2_creation_failure_retried_witness :
    ((ReaderState.mk false 0 []).denoiser = false ∧
      (fun _ : Nat => false) (ReaderState.mk false 0 []).attempts = false) ∧
    ((noiseFilterRead (fun _ => false)
        (fun x => some (ParsedPacket.mk (H := List Nat) [] x))
        (fun h p => some (h ++ p)) (fun _ _ => ⟨[], false, false⟩) (1 / 2)
        (ReaderState.mk false 0 []) [1, 2] 2).out = [1, 2] ∧
      (noiseFilterRead (fun _ => false)
        (fun x => some (ParsedPacket.mk (H := List Nat) [] x))
        (fun h p => some (h ++ p)) (fun _ _ => ⟨[], false, false⟩) (1 / 2)
        (ReaderState.mk false 0 []) [1, 2] 2).n = 2 ∧
      (noiseFilterRead (fun _ => false)
        (fun x => some (ParsedPacket.mk (H := List Nat) [] x))
        (fun h p => some (h ++ p)) (fun _ _ => ⟨[], false, false⟩) (1 / 2)
        (ReaderState.mk false 0 []) [1, 2] 2).err = false ∧
      (noiseFilterRead (fun _ => false)
        (fun x => some (ParsedPacket.mk (H := List Nat) [] x))
        (fun h p => some (h ++ p)) (fun _ _ => ⟨[], false, false⟩) (1 / 2)
        (ReaderState.mk false 0 []) [1, 2] 2).st.denoiser = false ∧
      (noiseFilterRead (fun _ => false)
        (fun x => some (ParsedPacket.mk (H := List Nat) [] x))
        (fun h p => some (h ++ p)) (fun _ _ => ⟨[], false, false⟩) (1 / 2)
        (ReaderState.mk false 0 []) [1, 2] 2).st.attempts =
        (ReaderState.mk false 0 []).attempts + 1 ∧
      (noiseFilterRead (fun _ => false)
        (fun x => some (ParsedPacket.mk (H := List Nat) [] x))
        (fun h p => some (h ++ p)) (fun _ _ => ⟨[], false, false⟩) (1 / 2)
        (ReaderState.mk false 0 []) [1, 2] 2).st.buffer =
        (ReaderState.mk false 0 []).buffer ∧
      (∀ b2 n2,
        (noiseFilterRead (fun _ => false)
          (fun x => some (ParsedPacket.mk (H := List Nat) [] x))
          (fun h p => some (h ++ p)) (fun _ _ => ⟨[], false, false⟩) (1 / 2)
          (noiseFilterRead (fun _ => false)
            (fun x => some (ParsedPacket.mk (H := List Nat) [] x))
            (fun h p => some (h ++ p)) (fun _ _ => ⟨[], false, false⟩) (1 / 2)
            (ReaderState.mk false 0 []) [1, 2] 2).st b2 n2).st.denoiser =
        (fun _ : Nat => false) ((ReaderState.mk false 0 []).attempts + 1))) :=
  ⟨⟨rfl, rfl⟩,
    C2_creation_failure_retried (fun _ => false)
      (fun x => some (ParsedPacket.mk (H := List Nat) [] x))
      (fun h p => some (h ++ p)) (fun _ _ => ⟨[], false, false⟩) (1 / 2)
      (ReaderState.mk false 0 []) [1, 2] 2 rfl rfl⟩

/-- A trivial RTP codec for concrete tests: the header is an (empty) byte
list and marshalling is concatenation. -/
def trivUnmarshal : List Nat → Option (ParsedPacket (List Nat)) := fun x => some ⟨[], x⟩

def trivMarshal : List Nat → List Nat → Option (List Nat) := fun h p => some (h ++ p)

/-- A concrete engine classifying every frame as non-voice. -/
def silentEngine : Engine := fun _ _ => ⟨[], false, false⟩

/-- A creation oracle failing on the first attempt and succeeding after. -/
def retryCreate : Nat → Bool := fun k => decide (0 < k)

theorem constFrame_take (a b : Nat) :
    (constFrame a b).take rnnoiseFrameBytes = constFrame a b := by
  rw [← constFrame_length a b]
  exact List.take_length _

theorem constFrame_drop (a b : Nat) :
    (constFrame a b).drop rnnoiseFrameBytes = [] := by
  rw [← constFrame_length a b]
  exact List.drop_length _

theorem silentEngine_processAudioPayload (threshold : ℚ) (a b : Nat) :
    processAudioPayload silentEngine threshold true [] (constFrame a b) =
      (List.replicate rnnoiseFrameBytes 0, []) := by
  have h960 : rnnoiseFrameBytes ≤ (constFrame a b).length := by
    rw [constFrame_length a b]
  have hstep := drainFrames_step silentEngine threshold true (constFrame a b) h960
  rw [constFrame_take, constFrame_drop,
    drainFrames_stop silentEngine threshold true [] (by decide)] at hstep
  rw [processFrame_keepFalse silentEngine threshold (constFrame a b) rfl] at hstep
  rw [List.append_nil] at hstep
  have hd := processAudioPayload_drain silentEngine threshold true [] (constFrame a b) h960
  rw [List.nil_append, hstep, constFrame_length] at hd
  rw [show rnnoiseFrameBytes * (rnnoiseFrameBytes / rnnoiseFrameBytes) = rnnoiseFrameBytes
    by decide] at hd
  rw [constFrame_drop, List.append_nil] at hd
  exact hd

theorem replicate_ne_constFrame (a b : Nat) (ha : a ≠ 0) :
    List.replicate rnnoiseFrameBytes (0 : Nat) ≠ constFrame a b := by
  intro hc
  have h0 := congrArg (fun l => List.getD l 0 0) hc
  simp only at h0
  rw [constFrame_getD_zero, replicate_getD_zero rnnoiseFrameBytes (by decide)] at h0
  exact ha h0.symm

/-- C2 counterexample: with a creation oracle that fails on the first
attempt and succeeds on the second, the packet read after the failed first
packet is processed (its bytes change) and the denoiser is installed —
contradicting the claim that after a first-packet creation failure every
subsequent packet is returned byte-identical and creation is never attempted
again. -/
theorem C2_counterexample :
    (noiseFilterRead retryCreate trivUnmarshal trivMarshal silentEngine (1 / 2)
      ((noiseFilterRead retryCreate trivUnmarshal trivMarshal silentEngine (1 / 2)
        (ReaderState.mk false 0 []) [9] 1).st)
      (constFrame 232 3) 960).out ≠ constFrame 232 3 ∧
    (noiseFilterRead retryCreate trivUnmarshal trivMarshal silentEngine (1 / 2)
      ((noiseFilterRead retryCreate trivUnmarshal trivMarshal silentEngine (1 / 2)
        (ReaderState.mk false 0 []) [9] 1).st)
      (constFrame 232 3) 960).st.denoiser = true := by
  have h1 : (noiseFilterRead retryCreate trivUnmarshal trivMarshal silentEngine (1 / 2)
      (ReaderState.mk false 0 []) [9] 1).st = ReaderState.mk false 1 [] := by
    rw [noiseFilterRead_createFail retryCreate trivUnmarshal trivMarshal silentEngine
      (1 / 2) (ReaderState.mk false 0 []) [9] 1 rfl rfl]
    rfl
  rw [h1]
  have htake : (constFrame 232 3).take 960 = constFrame 232 3 := constFrame_take 232 3
  have hu : trivUnmarshal ((constFrame 232 3).take 960) =
      some ⟨[], constFrame 232 3⟩ := by
    rw [htake]
    rfl
  have hne : (ParsedPacket.mk (H := List Nat) [] (constFrame 232 3)).payload.length ≠ 0 := by
    show (constFrame 232 3).length ≠ 0
    rw [constFrame_length]
    decide
  have hinit : initDenoiser retryCreate (ReaderState.mk false 1 []) =
      (ReaderState.mk true 2 [], true) := rfl
  have hpap := silentEngine_processAudioPayload (1 / 2) 232 3
  have hm : trivMarshal (ParsedPacket.mk (H := List Nat) [] (constFrame 232 3)).header
      (processAudioPayload silentEngine (1 / 2)
        (initDenoiser retryCreate (ReaderState.mk false 1 [])).1.denoiser
        (initDenoiser retryCreate (ReaderState.mk false 1 [])).1.buffer
        (constFrame 232 3)).1 = some ([] ++ List.replicate rnnoiseFrameBytes 0) := by
    rw [hinit]
    show trivMarshal []
      (processAudioPayload silentEngine (1 / 2) true [] (constFrame 232 3)).1 = _
    rw [hpap]
    rfl
  have hfit : ([] ++ List.replicate rnnoiseFrameBytes 0 : List Nat).length ≤
      (constFrame 232 3).length := by
    rw [List.nil_append, List.length_replicate, constFrame_length]
  have hp := noiseFilterRead_process retryCreate trivUnmarshal trivMarshal silentEngine
    (1 / 2) (ReaderState.mk false 1 []) (constFrame 232 3) 960
    (ParsedPacket.mk (H := List Nat) [] (constFrame 232 3))
    ([] ++ List.replicate rnnoiseFrameBytes 0)
    (by rw [hinit]) hu hne hm hfit
  rw [hp]
  constructor
  · show ([] ++ List.replicate rnnoiseFrameBytes 0) ++
      (constFrame 232 3).drop ([] ++ List.replicate rnnoiseFrameBytes 0 : List Nat).length ≠
      constFrame 232 3
    rw [List.nil_append, List.length_replicate, constFrame_drop, List.append_nil]
    exact replicate_ne_constFrame 232 3 (by decide)
  · rw [hinit]

theorem processAudioPayload_drain2 (fs : Engine) (threshold : ℚ) (denoiser : Bool)
    (buffer payload : List Nat) (h : rnnoiseFrameBytes ≤ payload.length) :
    processAudioPayload fs threshold denoiser buffer payload =
      ((drainFrames fs threshold denoiser (buffer ++ payload)).1 ++
        (drainFrames fs threshold denoiser (buffer ++ payload)).2, []) := by
  rw [processAudioPayload_drain fs threshold denoiser buffer payload h,
    ← drainFrames_snd]

/-- Draining a buffer whose first part is whole frames processes the parts
independently: the loop is aligned on frame boundaries. -/
theorem drainFrames_append_aligned (fs : Engine) (threshold : ℚ) (denoiser : Bool)
    (Y : List Nat) (k : Nat) :
    ∀ X : List Nat, X.length = rnnoiseFrameBytes * k →
      drainFrames fs threshold denoiser (X ++ Y) =
        ((drainFrames fs threshold denoiser X).1 ++
          (drainFrames fs threshold denoiser Y).1,
         (drainFrames fs threshold denoiser Y).2) := by
  induction k with
  | zero =>
    intro X hX
    have hXnil : X = [] := List.eq_nil_of_length_eq_zero (by omega)
    subst hXnil
    rw [List.nil_append, drainFrames_stop fs threshold denoiser [] (by decide)]
    rfl
  | succ m ih =>
    intro X hX
    have hF : (0:Nat) < rnnoiseFrameBytes := by decide
    have h1 : rnnoiseFrameBytes ≤ X.length := by
      rw [hX, Nat.mul_succ]
      omega
    have hXY : rnnoiseFrameBytes ≤ (X ++ Y).length := by
      rw [List.length_append]
      omega
    rw [drainFrames_step fs threshold denoiser (X ++ Y) hXY,
      drainFrames_step fs threshold denoiser X h1]
    have htake : (X ++ Y).take rnnoiseFrameBytes = X.take rnnoiseFrameBytes := by
      rw [List.take_append_eq_append_take,
        show rnnoiseFrameBytes - X.length = 0 by omega, List.take_zero,
        List.append_nil]
    have hdrop : (X ++ Y).drop rnnoiseFrameBytes = X.drop rnnoiseFrameBytes ++ Y := by
      rw [List.drop_append_eq_append_drop,
        show rnnoiseFrameBytes - X.length = 0 by omega, List.drop_zero]
    have hlen : (X.drop rnnoiseFrameBytes).length = rnnoiseFrameBytes * m := by
      rw [List.length_drop, hX, Nat.mul_succ]
      omega
    rw [htake, hdrop, ih (X.drop rnnoiseFrameBytes) hlen, List.append_assoc]

/-- C5 (amended): when the first payload `A` consists of whole frames
(its length is a positive multiple of `frameBytes`), feeding `A` then `B`
yields the same final accumulator and the same concatenated output as
feeding `A‖B` at once.  (When `A` ends mid-frame the outputs differ, because
the code flushes `A`'s sub-frame remainder into `A`'s output instead of
holding it for `B` — see the counterexample.) -/
theorem C5_seq_eq_concat_of_aligned (fs : Engine) (threshold : ℚ) (denoiser : Bool)
    (A B : List Nat) (k : Nat) (hk : 0 < k)
    (hA : A.length = rnnoiseFrameBytes * k) :
    (processAudioPayload fs threshold denoiser [] A).1 ++
      (processAudioPayload fs threshold denoiser
        (processAudioPayload fs threshold denoiser [] A).2 B).1 =
      (processAudioPayload fs threshold denoiser [] (A ++ B)).1 ∧
    (processAudioPayload fs threshold denoiser
        (processAudioPayload fs threshold denoiser [] A).2 B).2 =
      (processAudioPayload fs threshold denoiser [] (A ++ B)).2 := by
  have hF : (0:Nat) < rnnoiseFrameBytes := by decide
  have hAlen : rnnoiseFrameBytes ≤ A.length := by
    rw [hA]
    exact Nat.le_mul_of_pos_right _ hk
  have hABlen : rnnoiseFrameBytes ≤ (A ++ B).length := by
    rw [List.length_append]
    omega
  have hAsnd : (drainFrames fs threshold denoiser A).2 = [] := by
    rw [drainFrames_snd, hA, Nat.mul_div_cancel_left k hF, ← hA, List.drop_length]
  have hcat := drainFrames_append_aligned fs threshold denoiser B k A hA
  have hA1 := processAudioPayload_drain2 fs threshold denoiser [] A hAlen
  rw [List.nil_append] at hA1
  have hAB := processAudioPayload_drain2 fs threshold denoiser [] (A ++ B) hABlen
  rw [List.nil_append] at hAB
  by_cases hB : B.length < rnnoiseFrameBytes
  · have hBstop := drainFrames_stop fs threshold denoiser B hB
    have hB2 := processAudioPayload_bypass fs threshold denoiser
      (processAudioPayload fs threshold denoiser [] A).2 B hB
    rw [hA1] at hB2 ⊢
    rw [hB2, hAB, hcat, hBstop, hAsnd]
    constructor
    · simp
    · rfl
  · have hBlen : rnnoiseFrameBytes ≤ B.length := by omega
    have hB1 := processAudioPayload_drain2 fs threshold denoiser
      (processAudioPayload fs threshold denoiser [] A).2 B hBlen
    rw [hA1] at hB1 ⊢
    rw [List.nil_append] at hB1
    rw [hB1, hAB, hcat, hAsnd]
    constructor
    · simp
    · rfl

/-- Witness for `C5_seq_eq_concat_of_aligned`: one whole frame followed by a
short payload. -/
theorem C5_seq_eq_concat_of_aligned_witness :
    ((0:Nat) < 1 ∧ (constFrame 232 3).length = rnnoiseFrameBytes * 1) ∧
    ((processAudioPayload silentEngine (1 / 2) true [] (constFrame 232 3)).1 ++
      (processAudioPayload silentEngine (1 / 2) true
        (processAudioPayload silentEngine (1 / 2) true [] (constFrame 232 3)).2
        [1, 2, 3]).1 =
      (processAudioPayload silentEngine (1 / 2) true []
        (constFrame 232 3 ++ [1, 2, 3])).1 ∧
    (processAudioPayload silentEngine (1 / 2) true
        (processAudioPayload silentEngine (1 / 2) true [] (constFrame 232 3)).2
        [1, 2, 3]).2 =
      (processAudioPayload silentEngine (1 / 2) true []
        (constFrame 232 3 ++ [1, 2, 3])).2) :=
  ⟨⟨by decide, by rw [constFrame_length]; exact (Nat.mul_one _).symm⟩,
    C5_seq_eq_concat_of_aligned silentEngine (1 / 2) true (constFrame 232 3)
      [1, 2, 3] 1 (by decide)
      (by rw [constFrame_length]; exact (Nat.mul_one _).symm)⟩

theorem constFrame_append_take (a b : Nat) (Y : List Nat) :
    (constFrame a b ++ Y).take rnnoiseFrameBytes = constFrame a b := by
  rw [List.take_append_eq_append_take,
    show rnnoiseFrameBytes - (constFrame a b).length = 0 by rw [constFrame_length]; omega,
    List.take_zero, List.append_nil, constFrame_take]

theorem constFrame_append_drop (a b : Nat) (Y : List Nat) :
    (constFrame a b ++ Y).drop rnnoiseFrameBytes = Y := by
  rw [List.drop_append_eq_append_drop,
    show rnnoiseFrameBytes - (constFrame a b).length = 0 by rw [constFrame_length]; omega,
    List.drop_zero, constFrame_drop, List.nil_append]

theorem drain_full_frame (threshold : ℚ) (Z : List Nat)
    (hZ : Z.length = rnnoiseFrameBytes) :
    drainFrames silentEngine threshold true Z =
      (List.replicate rnnoiseFrameBytes 0, []) := by
  rw [drainFrames_step silentEngine threshold true Z (by omega)]
  have htake : Z.take rnnoiseFrameBytes = Z := by
    rw [← hZ]
    exact List.take_length _
  have hdrop : Z.drop rnnoiseFrameBytes = [] := by
    rw [← hZ]
    exact List.drop_length _
  rw [htake, hdrop, drainFrames_stop silentEngine threshold true [] (by decide),
    processFrame_keepFalse silentEngine threshold Z rfl, List.append_nil]

theorem drain_constFrame_append_short (threshold : ℚ) (a b : Nat) (Y : List Nat)
    (hY : Y.length < rnnoiseFrameBytes) :
    drainFrames silentEngine threshold true (constFrame a b ++ Y) =
      (List.replicate rnnoiseFrameBytes 0, Y) := by
  rw [drainFrames_step silentEngine threshold true (constFrame a b ++ Y)
    (by rw [List.length_append, constFrame_length]; omega)]
  rw [constFrame_append_take, constFrame_append_drop,
    drainFrames_stop silentEngine threshold true Y hY,
    processFrame_keepFalse silentEngine threshold (constFrame a b) rfl,
    List.append_nil]

/-- C5 counterexample: take `A = constFrame 232 3 ++ [1, 2]` (962 bytes — it
ends two bytes into the second frame) and `B = List.replicate 958 7`
(so `A‖B` is exactly two frames).  Feeding `A` then `B` emits `A`'s two
leftover bytes raw at the end of `A`'s output and passes `B` through
unprocessed, while feeding `A‖B` at once processes those bytes as part of a
complete second frame: the concatenated outputs differ (byte 960 is `1`
versus `0`), refuting the claimed concatenation homomorphism. -/
theorem C5_counterexample :
    ¬ ((processAudioPayload silentEngine (1 / 2) true []
          (constFrame 232 3 ++ [1, 2])).1 ++
        (processAudioPayload silentEngine (1 / 2) true
          (processAudioPayload silentEngine (1 / 2) true []
            (constFrame 232 3 ++ [1, 2])).2
          (List.replicate 958 7)).1 =
        (processAudioPayload silentEngine (1 / 2) true []
          ((constFrame 232 3 ++ [1, 2]) ++ List.replicate 958 7)).1 ∧
      (processAudioPayload silentEngine (1 / 2) true
          (processAudioPayload silentEngine (1 / 2) true []
            (constFrame 232 3 ++ [1, 2])).2
          (List.replicate 958 7)).2 =
        (processAudioPayload silentEngine (1 / 2) true []
          ((constFrame 232 3 ++ [1, 2]) ++ List.replicate 958 7)).2) := by
  intro hcl
  have hout := hcl.1
  have hA1 := processAudioPayload_drain2 silentEngine (1 / 2) true []
    (constFrame 232 3 ++ [1, 2])
    (by rw [List.length_append, constFrame_length]; omega)
  rw [List.nil_append,
    drain_constFrame_append_short (1 / 2) 232 3 [1, 2] (by decide)] at hA1
  have hB1 := processAudioPayload_bypass silentEngine (1 / 2) true
    (processAudioPayload silentEngine (1 / 2) true []
      (constFrame 232 3 ++ [1, 2])).2
    (List.replicate 958 7) (by rw [List.length_replicate]; decide)
  have hfull : ([1, 2] ++ List.replicate 958 7 : List Nat).length = rnnoiseFrameBytes := by
    rw [List.length_append, List.length_replicate]
    decide
  have hAB := processAudioPayload_drain2 silentEngine (1 / 2) true []
    ((constFrame 232 3 ++ [1, 2]) ++ List.replicate 958 7)
    (by rw [List.length_append, List.length_append, constFrame_length]; omega)
  rw [List.nil_append, List.append_assoc,
    drainFrames_append_aligned silentEngine (1 / 2) true
      ([1, 2] ++ List.replicate 958 7) 1 (constFrame 232 3)
      (by rw [constFrame_length]; exact (Nat.mul_one _).symm),
    drain_full_frame (1 / 2) (constFrame 232 3) (constFrame_length 232 3),
    drain_full_frame (1 / 2) ([1, 2] ++ List.replicate 958 7) hfull,
    List.append_nil] at hAB
  rw [List.append_assoc] at hout
  rw [hB1, hA1, hAB] at hout
  dsimp only at hout
  have h960 := congrArg (fun l => List.getD l 960 0) hout
  simp only at h960
  rw [List.getD_append _ _ _ _ (by rw [List.length_append, List.length_replicate]; decide)]
    at h960
  rw [List.getD_append_right _ _ _ _ (by rw [List.length_replicate]; decide)] at h960
  rw [List.length_replicate] at h960
  rw [List.getD_append_right _ _ _ _ (by rw [List.length_replicate]; decide)] at h960
  rw [List.length_replicate] at h960
  norm_num at h960
  rw [show (960 : Nat) - rnnoiseFrameBytes = 0 from by decide] at h960
  simp at h960

theorem clampDenormalize_lower (s : ℚ) : -32768 ≤ clampDenormalize s := by
  unfold clampDenormalize
  split
  · norm_num
  · split
    · norm_num
    · rename_i h1 h2
      push_neg at h2
      linarith

theorem clampDenormalize_upper (s : ℚ) : clampDenormalize s ≤ 32767 := by
  unfold clampDenormalize
  split
  · norm_num
  · split
    · norm_num
    · rename_i h1 h2
      push_neg at h1
      linarith

theorem clampDenormalize_full (s : ℚ) (h : 1 ≤ s) : clampDenormalize s = 32767 := by
  unfold clampDenormalize
  rw [if_pos (by nlinarith)]

theorem truncToInt_intCast (n : Int) : truncToInt (n : ℚ) = n := by
  unfold truncToInt
  split
  · exact Int.floor_intCast n
  · exact Int.ceil_intCast n

theorem uint16_bytes_roundtrip (u : Nat) (h : u < 65536) :
    uint16OfBytes (u % 256) (u / 256 % 256) = u := by
  unfold uint16OfBytes
  omega

theorem requant_roundtrip (q : ℚ) (h1 : (-32768 : ℚ) ≤ q) (h2 : q ≤ (32767 : ℚ)) :
    int16OfUint16 (uint16OfBytes (uint16OfInt16 (truncToInt q) % 256)
      (uint16OfInt16 (truncToInt q) / 256 % 256)) = truncToInt q := by
  have hl : (-32768 : Int) ≤ truncToInt q := truncToInt_lower q (-32768) (by push_cast; linarith)
  have hu : truncToInt q ≤ (32767 : Int) := truncToInt_upper q 32767 (by push_cast; linarith)
  have hu16 : uint16OfInt16 (truncToInt q) < 65536 := by
    unfold uint16OfInt16
    omega
  rw [uint16_bytes_roundtrip _ hu16]
  exact int16_roundtrip _ hl hu

theorem processBytes_getD (l : List ℚ) :
    ∀ i, i < l.length →
      (pairJoin l (fun s => bytePairOfInt16 (truncToInt s))).getD (2 * i) 0 =
        uint16OfInt16 (truncToInt (l.getD i 0)) % 256 ∧
      (pairJoin l (fun s => bytePairOfInt16 (truncToInt s))).getD (2 * i + 1) 0 =
        uint16OfInt16 (truncToInt (l.getD i 0)) / 256 % 256 := by
  induction l with
  | nil => intro i hi; simp at hi
  | cons x xs ih =>
    intro i hi
    simp only [pairJoin, List.flatMap_cons, bytePairOfInt16]
    cases i with
    | zero => constructor <;> rfl
    | succ j =>
      have hj : j < xs.length := by simpa using Nat.lt_of_succ_lt_succ hi
      have h2 : 2 * (j + 1) = 2 * j + 1 + 1 := by ring
      rw [h2]
      constructor
      · show (List.getD (_ :: _ :: _) (2 * j + 1 + 1) 0) = _
        rw [List.getD_cons_succ, List.getD_cons_succ]
        exact (ih j hj).1
      · show (List.getD (_ :: _ :: _) (2 * j + 1 + 1 + 1) 0) = _
        rw [List.getD_cons_succ, List.getD_cons_succ]
        exact (ih j hj).2

theorem overwriteWith_getD (den samples : List ℚ) (i : Nat)
    (hlen : den.length = samples.length) (hi : i < den.length) :
    (overwriteWith den samples).getD i 0 =
      clampDenormalize (den.getD i 0) := by
  unfold overwriteWith
  rw [show samples.length = (den.map clampDenormalize).length by
    rw [List.length_map, hlen]]
  rw [List.take_length, hlen, List.drop_length, List.append_nil]
  rw [List.getD_eq_getElem?_getD, List.getD_eq_getElem?_getD, List.getElem?_map]
  rw [List.getElem?_eq_getElem hi]
  rfl

theorem suppressSamples_success_getD (fs : Engine) (threshold : ℚ)
    (samples : List ℚ) (i : Nat)
    (he : (fs samples threshold).err = false)
    (hk : (fs samples threshold).keep = true)
    (hlen : (fs samples threshold).denoised.length = samples.length)
    (hi : i < (fs samples threshold).denoised.length) :
    (suppressSamples fs threshold true samples).getD i 0 =
      clampDenormalize ((fs samples threshold).denoised.getD i 0) := by
  unfold suppressSamples
  rw [if_pos rfl, if_pos ⟨he, hk⟩]
  exact overwriteWith_getD _ _ i hlen hi

/-- C9: on the engine-success path, re-quantization of each processed sample
clamps to `[-32768, 32767]` and never wraps: the wire bytes of output sample
`i` decode to the truncation of the clamped, de-normalized engine sample,
that value lies in the 16-bit signed range, and an engine sample at or above
full-scale positive amplitude (`1.0`) yields exactly `32767`, never a
negative value. -/
theorem C9_requantization_clamps (fs : Engine) (threshold : ℚ) (frame : List Nat)
    (i : Nat) (hi : i < rnnoiseFrameSize)
    (he : (fs (frameSamples frame) threshold).err = false)
    (hk : (fs (frameSamples frame) threshold).keep = true)
    (hlen : (fs (frameSamples frame) threshold).denoised.length = rnnoiseFrameSize) :
    int16OfUint16 (uint16OfBytes
        ((processFrame fs threshold true frame).getD (2 * i) 0)
        ((processFrame fs threshold true frame).getD (2 * i + 1) 0)) =
      truncToInt (clampDenormalize
        ((fs (frameSamples frame) threshold).denoised.getD i 0)) ∧
    -32768 ≤ truncToInt (clampDenormalize
        ((fs (frameSamples frame) threshold).denoised.getD i 0)) ∧
    truncToInt (clampDenormalize
        ((fs (frameSamples frame) threshold).denoised.getD i 0)) ≤ 32767 ∧
    (1 ≤ (fs (frameSamples frame) threshold).denoised.getD i 0 →
      truncToInt (clampDenormalize
        ((fs (frameSamples frame) threshold).denoised.getD i 0)) = 32767) := by
  have hi2 : i < (suppressSamples fs threshold true (frameSamples frame)).length := by
    rw [suppressSamples_length, frameSamples_length]
    exact hi
  have hb := processBytes_getD (suppressSamples fs threshold true (frameSamples frame)) i hi2
  have hsup := suppressSamples_success_getD fs threshold (frameSamples frame) i he hk
    (by rw [hlen, frameSamples_length]) (by rw [hlen]; exact hi)
  have hclo := clampDenormalize_lower
    ((fs (frameSamples frame) threshold).denoised.getD i 0)
  have hchi := clampDenormalize_upper
    ((fs (frameSamples frame) threshold).denoised.getD i 0)
  have htlo : (-32768 : Int) ≤ truncToInt (clampDenormalize
      ((fs (frameSamples frame) threshold).denoised.getD i 0)) :=
    truncToInt_lower _ _ (by push_cast; linarith)
  have hthi : truncToInt (clampDenormalize
      ((fs (frameSamples frame) threshold).denoised.getD i 0)) ≤ (32767 : Int) :=
    truncToInt_upper _ _ (by push_cast; linarith)
  refine ⟨?_, htlo, hthi, ?_⟩
  · unfold processFrame
    rw [hb.1, hb.2, hsup]
    exact requant_roundtrip _ hclo hchi
  · intro hfull
    rw [clampDenormalize_full _ hfull]
    rw [show (32767 : ℚ) = ((32767 : Int) : ℚ) by norm_num]
    exact truncToInt_intCast 32767

/-- Witness for `C9_requantization_clamps`: an engine returning a full-scale
(`1.0`) frame. -/
theorem C9_requantization_clamps_witness :
    ((0:Nat) < rnnoiseFrameSize ∧
      ((fun _ _ => ⟨List.replicate rnnoiseFrameSize 1, true, false⟩ : Engine)
        (frameSamples (constFrame 0 0)) (1 / 2)).err = false ∧
      ((fun _ _ => ⟨List.replicate rnnoiseFrameSize 1, true, false⟩ : Engine)
        (frameSamples (constFrame 0 0)) (1 / 2)).keep = true ∧
      ((fun _ _ => ⟨List.replicate rnnoiseFrameSize 1, true, false⟩ : Engine)
        (frameSamples (constFrame 0 0)) (1 / 2)).denoised.length = rnnoiseFrameSize) ∧
    (int16OfUint16 (uint16OfBytes
        ((processFrame (fun _ _ => ⟨List.replicate rnnoiseFrameSize 1, true, false⟩)
          (1 / 2) true (constFrame 0 0)).getD (2 * 0) 0)
        ((processFrame (fun _ _ => ⟨List.replicate rnnoiseFrameSize 1, true, false⟩)
          (1 / 2) true (constFrame 0 0)).getD (2 * 0 + 1) 0)) =
      truncToInt (clampDenormalize
        (((fun _ _ => ⟨List.replicate rnnoiseFrameSize 1, true, false⟩ : Engine)
          (frameSamples (constFrame 0 0)) (1 / 2)).denoised.getD 0 0)) ∧
    -32768 ≤ truncToInt (clampDenormalize
        (((fun _ _ => ⟨List.replicate rnnoiseFrameSize 1, true, false⟩ : Engine)
          (frameSamples (constFrame 0 0)) (1 / 2)).denoised.getD 0 0)) ∧
    truncToInt (clampDenormalize
        (((fun _ _ => ⟨List.replicate rnnoiseFrameSize 1, true, false⟩ : Engine)
          (frameSamples (constFrame 0 0)) (1 / 2)).denoised.getD 0 0)) ≤ 32767 ∧
    (1 ≤ ((fun _ _ => ⟨List.replicate rnnoiseFrameSize 1, true, false⟩ : Engine)
          (frameSamples (constFrame 0 0)) (1 / 2)).denoised.getD 0 0 →
      truncToInt (clampDenormalize
        (((fun _ _ => ⟨List.replicate rnnoiseFrameSize 1, true, false⟩ : Engine)
          (frameSamples (constFrame 0 0)) (1 / 2)).denoised.getD 0 0)) = 32767)) :=
  ⟨⟨by decide, rfl, rfl, List.length_replicate _ _⟩,
    C9_requantization_clamps (fun _ _ => ⟨List.replicate rnnoiseFrameSize 1, true, false⟩)
      (1 / 2) (constFrame 0 0) 0 (by decide) rfl rfl (List.length_replicate _ _)⟩

/-- One negotiated RTP header extension of the bind-time stream metadata
(`interceptor.StreamInfo.RTPHeaderExtensions`). -/
structure HeaderExtension where
  id : Nat
  uri : String

/-- The audio-level extension URI checked by `BindRemoteStream`
(noise_filter.go line 98). -/
def audioLevelURI : String := "urn:ietf:params:rtp-hdrext:ssrc-audio-level"

/-- Modelled from the spec: `utils.GetHeaderExtensionID` (from
`pkg/sfu/utils`, whose source is not part of the provided files) — "the
stream's extension set includes the audio-level indicator extension":
it returns the numeric ID of the extension whose URI matches, and `0` when
the extension set does not include that URI. -/
def getHeaderExtensionID (exts : List HeaderExtension) (uri : String) : Nat :=
  match exts.find? (fun e => e.uri == uri) with
  | some e => e.id
  | none => 0

/-- `NoiseFilterInterceptor.BindRemoteStream` (noise_filter.go lines
85–115), reduced to its decision: `true` iff a `noiseFilterReader` is
attached; `false` means the original reader is returned unchanged.  The
extension set is `none` when `info.RTPHeaderExtensions == nil`. -/
def bindRemoteStream (enabled : Bool) (extensions : Option (List HeaderExtension)) :
    Bool :=
  match extensions with
  | none => false
  | some exts =>
    if enabled = false then false
    else if getHeaderExtensionID exts audioLevelURI = 0 then false
    else true

/-- The per-packet byte transform of a bound stream: when no filter is
attached the original reader delivers the packet unchanged. -/
def boundReadOutput (enabled : Bool) (extensions : Option (List HeaderExtension))
    (transform : List Nat → List Nat) (packet : List Nat) : List Nat :=
  if bindRemoteStream enabled extensions then transform packet else packet

/-- C7: for a stream whose bind-time metadata lacks the ssrc-audio-level
extension (including nil or empty extension sets), or whenever the
configuration is disabled at bind time, `BindRemoteStream` attaches no
filter and every packet is delivered with output bytes equal to input
bytes. -/
theorem C7_no_filter_without_extension_or_disabled (enabled : Bool)
    (extensions : Option (List HeaderExtension))
    (h : enabled = false ∨
      ∀ exts, extensions = some exts → getHeaderExtensionID exts audioLevelURI = 0) :
    bindRemoteStream enabled extensions = false ∧
    ∀ transform packet, boundReadOutput enabled extensions transform packet = packet := by
  have hb : bindRemoteStream enabled extensions = false := by
    unfold bindRemoteStream
    cases extensions with
    | none => rfl
    | some exts =>
      dsimp only
      rcases h with h | h
      · rw [if_pos h]
      · by_cases he : enabled = false
        · rw [if_pos he]
        · rw [if_neg he, if_pos (h exts rfl)]
  refine ⟨hb, ?_⟩
  intro transform packet
  unfold boundReadOutput
  rw [hb]
  rfl

/-- Witness for `C7_no_filter_without_extension_or_disabled`: a disabled
configuration with the audio-level extension present. -/
theorem C7_no_filter_without_extension_or_disabled_witness :
    ((false = false ∨
      ∀ exts, (some [HeaderExtension.mk 1 audioLevelURI] :
          Option (List HeaderExtension)) = some exts →
        getHeaderExtensionID exts audioLevelURI = 0)) ∧
    bindRemoteStream false (some [HeaderExtension.mk 1 audioLevelURI]) = false ∧
    (∀ transform packet,
      boundReadOutput false (some [HeaderExtension.mk 1 audioLevelURI])
        transform packet = packet) :=
  ⟨Or.inl rfl,
    C7_no_filter_without_extension_or_disabled false
      (some [HeaderExtension.mk 1 audioLevelURI]) (Or.inl rfl)⟩
